import Mathlib

/-!
Verification development for the Acadion face-match attendance engine.

The data model and operations below are shallow embeddings of the
repository's source: the TakeAttendance page state logic
(src/unnamed/part_002), the attendance SQL schema (src/unnamed/part_006 and
src/backend/migrations/001_initial_schema.sql) and the FaceService snippet
in src/docs/DEVELOPMENT.md.  The backend resolution pipeline itself is not
part of the source tree; where a claim depends on it, the corresponding
definition is modelled from the spec and marked as such in its doc comment.
-/

namespace Acadion

/-- Attendance status, as in the CHECK constraint of the attendance table. -/
inductive Status where
  | present
  | absent
  | late
deriving DecidableEq, Repr

/-- Attendance method, as in the CHECK constraint of the attendance table
(the literal used by the code is the string face_recognition; the spec calls
this value face_match). -/
inductive Method where
  | manual
  | face_recognition
deriving DecidableEq, Repr

/-- The AttendanceRecord interface of the TakeAttendance page
(src/unnamed/part_002, lines 329-334).  The student_id field is optional
because a javascript spread of a missing map entry leaves it undefined. -/
structure AttRec where
  student_id : Option String
  status : Status
  method : Method
  confidence_score : Option ℚ
deriving DecidableEq, Repr

/-- The React attendance state: a map from student id to record. -/
def AttendanceMap := String → Option AttRec

/-- The markAttendance handler (src/unnamed/part_002, lines 402-411): a
functional update of the attendance map that spreads the previous entry and
overrides status and method. -/
def markAttendance (prev : AttendanceMap) (studentId : String) (status : Status) :
    AttendanceMap :=
  fun k =>
    if k = studentId then
      some (match prev studentId with
        | some r => { r with status := status, method := Method.manual }
        | none =>
            { student_id := none, status := status, method := Method.manual,
              confidence_score := none })
    else prev k

/-- The attendance initialisation performed by fetchStudents
(src/unnamed/part_002, lines 384-393): every enrolled student starts absent
with method manual. -/
def initialAttendance (students : List String) : AttendanceMap :=
  fun k =>
    if k ∈ students then
      some { student_id := some k, status := Status.absent, method := Method.manual,
             confidence_score := none }
    else none

/-- One element of the recognized_students list of a face-recognition
response (src/unnamed/part_002, response consumed at lines 455-462). -/
structure RecognizedStudent where
  student_id : String
  face_index : ℕ
  similarity_score : ℚ
deriving DecidableEq, Repr

/-- The face-recognition response as consumed by the TakeAttendance page:
besides the documented counts and lists it carries the top-level student_id
and similarity_score fields that handleFaceRecognition actually reads. -/
structure FaceResult where
  success : Bool
  student_id : String
  similarity_score : Option ℚ
  faces_detected : ℕ
  faces_recognized : ℕ
  faces_unrecognized : ℕ
  recognized_students : List RecognizedStudent
  unrecognized_faces : List ℕ
deriving Repr

/-- The state update of handleFaceRecognition (src/unnamed/part_002, lines
445-455): when the request is ok and the result reports success, only the
entry at the top-level result.student_id is overwritten; otherwise the map
is untouched. -/
def handleFaceRecognitionUpdate (prev : AttendanceMap) (ok : Bool)
    (result : FaceResult) : AttendanceMap :=
  if ok && result.success then
    fun k =>
      if k = result.student_id then
        some { student_id := some result.student_id, status := Status.present,
               method := Method.face_recognition,
               confidence_score := result.similarity_score }
      else prev k
  else prev

/-- The record list posted by saveAttendance (src/unnamed/part_002, line
490): only the entries whose status is present are persisted. -/
def savedRecords (attendance : List AttRec) : List AttRec :=
  attendance.filter (fun r => decide (r.status = Status.present))

/-- The displayed present count (src/unnamed/part_002, line 517). -/
def presentCount (attendance : List AttRec) : ℕ :=
  (attendance.filter (fun r => decide (r.status = Status.present))).length

/-- The displayed absent count (src/unnamed/part_002, line 518): total
enrolled minus present, computed in javascript number arithmetic. -/
def absentCount (attendance : List AttRec) (students : List String) : ℤ :=
  (students.length : ℤ) - presentCount attendance

/-- Entries of a list counted by status, used to relate the displayed counts
to the status distribution of the attendance map. -/
theorem status_partition (l : List AttRec) :
    l.length = (l.filter (fun r => decide (r.status = Status.present))).length
      + (l.filter (fun r => decide (r.status = Status.absent))).length
      + (l.filter (fun r => decide (r.status = Status.late))).length := by
  induction l with
  | nil => rfl
  | cons a t ih =>
    cases h : a.status <;>
      simp only [List.filter_cons, h, decide_eq_true_eq, List.length_cons, ih] <;>
      simp <;> omega

/-- C9: the manual toggle markAttendance rewrites exactly the targeted
student's entry, setting its status to the requested one and its method to
manual while keeping every other field (in particular any confidence_score
previously set by face recognition), and leaves every other student's entry
untouched. -/
theorem markAttendance_frame (prev : AttendanceMap) (sid : String) (st : Status)
    (r : AttRec) (h : prev sid = some r) :
    markAttendance prev sid st sid =
      some { r with status := st, method := Method.manual } ∧
    ({ r with status := st, method := Method.manual } : AttRec).confidence_score
      = r.confidence_score ∧
    ({ r with status := st, method := Method.manual } : AttRec).method
      = Method.manual ∧
    (∀ k, k ≠ sid → markAttendance prev sid st k = prev k) := by
  refine ⟨?_, rfl, rfl, ?_⟩
  · simp [markAttendance, h]
  · intro k hk
    simp [markAttendance, hk]

/-- Concrete attendance map used to witness the markAttendance theorem: one
student previously marked present by face recognition with confidence. -/
def demoPrev : AttendanceMap :=
  fun k =>
    if k = "alice" then
      some { student_id := some "alice", status := Status.present,
             method := Method.face_recognition, confidence_score := some (9/10) }
    else none

/-- Witness for markAttendance_frame at a concrete map: toggling alice to
late keeps her recorded confidence score and flips the method to manual. -/
theorem markAttendance_frame_witness :
    markAttendance demoPrev "alice" Status.late "alice" =
      some { student_id := some "alice", status := Status.late,
             method := Method.manual, confidence_score := some (9/10) } :=
  (markAttendance_frame demoPrev "alice" Status.late
    { student_id := some "alice", status := Status.present,
      method := Method.face_recognition, confidence_score := some (9/10) }
    (by simp [demoPrev])).1

/-- C10: whenever the attendance map holds one entry per enrolled student,
the displayed counts satisfy presentCount + absentCount = number of enrolled
students, and the displayed absent count equals the number of students whose
status is absent plus the number whose status is late, so late students are
shown inside the absent count. -/
theorem attendance_counts_sum (attendance : List AttRec) (students : List String)
    (h : attendance.length = students.length) :
    (presentCount attendance : ℤ) + absentCount attendance students
        = students.length ∧
    absentCount attendance students =
      ((attendance.filter (fun r => decide (r.status = Status.absent))).length : ℤ)
        + (attendance.filter (fun r => decide (r.status = Status.late))).length := by
  have hp := status_partition attendance
  constructor
  · simp [absentCount]
  · simp only [absentCount, presentCount, ← h]
    omega

/-- Concrete attendance list witnessing the count theorem: one present, one
late, one absent student; the displayed absent count is 2. -/
def demoCounts : List AttRec :=
  [ { student_id := some "a", status := Status.present, method := Method.manual,
      confidence_score := none },
    { student_id := some "b", status := Status.late, method := Method.manual,
      confidence_score := none },
    { student_id := some "c", status := Status.absent, method := Method.manual,
      confidence_score := none } ]

/-- Witness for attendance_counts_sum on a concrete three-student class. -/
theorem attendance_counts_sum_witness :
    (presentCount demoCounts : ℤ) + absentCount demoCounts ["a", "b", "c"] = 3 ∧
    absentCount demoCounts ["a", "b", "c"] =
      ((demoCounts.filter (fun r => decide (r.status = Status.absent))).length : ℤ)
        + (demoCounts.filter (fun r => decide (r.status = Status.late))).length := by
  have := attendance_counts_sum demoCounts ["a", "b", "c"] (by rfl)
  simpa using this

/-- A one-student class in which the sole enrolled student is marked absent
and another is marked late, the state fetchStudents produces when nobody was
recognized or toggled. -/
def demoUnsavedMap : List AttRec :=
  [ { student_id := some "alice", status := Status.absent, method := Method.manual,
      confidence_score := none },
    { student_id := some "bob", status := Status.late, method := Method.manual,
      confidence_score := none } ]

/-- C4 counterexample: saveAttendance persists nothing for an enrolled
student whose status is absent (nor for a late one) — the claim that every
non-matched enrolled identity gets a persisted absent record is false on the
code, which filters the map down to the entries with status present before
posting. -/
theorem saveAttendance_drops_absent_students :
    savedRecords demoUnsavedMap = [] ∧
    ¬ (∃ r ∈ savedRecords demoUnsavedMap, r.student_id = some "alice") ∧
    ¬ (∃ r ∈ savedRecords demoUnsavedMap, r.student_id = some "bob") := by
  refine ⟨?_, ?_, ?_⟩ <;> simp [savedRecords, demoUnsavedMap]

/-- C4 amended: a record is posted by saveAttendance exactly when it is an
entry of the attendance map whose status is present; entries with status
absent or late produce no persisted record at all. -/
theorem savedRecords_only_present (attendance : List AttRec) (r : AttRec) :
    r ∈ savedRecords attendance ↔ r ∈ attendance ∧ r.status = Status.present := by
  simp [savedRecords, List.mem_filter]

/-- Witness for savedRecords_only_present: a present entry is persisted. -/
theorem savedRecords_only_present_witness :
    ({ student_id := some "a", status := Status.present, method := Method.manual,
       confidence_score := none } : AttRec) ∈
      savedRecords
        [ { student_id := some "a", status := Status.present,
            method := Method.manual, confidence_score := none } ] :=
  (savedRecords_only_present
      [ { student_id := some "a", status := Status.present,
          method := Method.manual, confidence_score := none } ]
      { student_id := some "a", status := Status.present, method := Method.manual,
        confidence_score := none }).mpr ⟨by simp, rfl⟩

/-- A successful face-recognition response in which two enrolled students
appear in recognized_students while the top-level student_id names only the
first of them — the shape the backend returns for a two-face photo. -/
def demoTwoRecognized : FaceResult :=
  { success := true
    student_id := "alice"
    similarity_score := some (9/10)
    faces_detected := 2
    faces_recognized := 2
    faces_unrecognized := 0
    recognized_students :=
      [ { student_id := "alice", face_index := 0, similarity_score := 9/10 },
        { student_id := "bob", face_index := 1, similarity_score := 4/5 } ]
    unrecognized_faces := [] }

/-- C1: evaluation of the handleFaceRecognition state update at a response
recognizing both alice and bob: although bob is listed in
recognized_students with similarity 4/5, only the entry at the top-level
student_id (alice) is marked present; bob's entry stays absent with method
manual and no confidence score, contradicting the rule that every identity
in the resolved set is marked present via face match. -/
theorem face_success_marks_only_top_student :
    demoTwoRecognized.success = true ∧
    ({ student_id := "bob", face_index := 1, similarity_score := 4/5 } :
        RecognizedStudent) ∈ demoTwoRecognized.recognized_students ∧
    handleFaceRecognitionUpdate (initialAttendance ["alice", "bob"]) true
        demoTwoRecognized "alice" =
      some { student_id := some "alice", status := Status.present,
             method := Method.face_recognition, confidence_score := some (9/10) } ∧
    handleFaceRecognitionUpdate (initialAttendance ["alice", "bob"]) true
        demoTwoRecognized "bob" =
      some { student_id := some "bob", status := Status.absent,
             method := Method.manual, confidence_score := none } := by
  refine ⟨rfl, by simp [demoTwoRecognized], ?_, ?_⟩ <;>
    simp [handleFaceRecognitionUpdate, demoTwoRecognized, initialAttendance]

/-- FaceService.compare_faces from src/docs/DEVELOPMENT.md (lines 148-152):
given the vector of face distances produced by face_distance against the
known encodings, it returns the elementwise boolean vector distances <
threshold, accepting a candidate exactly when its distance is strictly below
the threshold. -/
def compare_faces (distances : List ℚ) (threshold : ℚ) : List Bool :=
  distances.map (fun d => decide (d < threshold))

/-- C5 counterexample: with the configured threshold 0.6, a face at distance
0.5 is accepted by compare_faces, yet its similarity 1 - 0.5 = 0.5 is below
0.6 — so acceptance is not similarity at or above the threshold, refuting
the claim that every accepted candidate has similarity_score at least the
configured threshold. -/
theorem compare_faces_boundary_counterexample :
    compare_faces [1/2] (6/10) = [true] ∧ ¬ ((1 : ℚ) - 1/2 ≥ 6/10) := by
  constructor
  · simp [compare_faces]
    norm_num
  · norm_num

/-- C5 amended: compare_faces accepts a candidate if and only if its face
distance is strictly less than the threshold — equivalently its similarity
1 - distance is strictly greater than 1 - threshold, not necessarily at or
above the threshold itself. -/
theorem compare_faces_accepts_iff_distance_lt (distances : List ℚ)
    (threshold : ℚ) (i : ℕ) :
    ((compare_faces distances threshold).get? i = some true ↔
      ∃ d, distances.get? i = some d ∧ d < threshold) ∧
    (∀ d ∈ distances, d < threshold → 1 - threshold < 1 - d) := by
  constructor
  · induction distances generalizing i with
    | nil => simp [compare_faces]
    | cons a t ih =>
      cases i with
      | zero => simp [compare_faces]
      | succ n =>
        simp only [compare_faces, List.map_cons, List.get?_cons_succ, List.get?]
        exact ih n
  · intro d _ hd
    linarith

/-- Witness for compare_faces_accepts_iff_distance_lt at distance 0.5 and
threshold 0.6. -/
theorem compare_faces_accepts_iff_distance_lt_witness :
    (compare_faces [1/2] (6/10)).get? 0 = some true :=
  ((compare_faces_accepts_iff_distance_lt [1/2] (6/10) 0).1).mpr
    ⟨1/2, rfl, by norm_num⟩

/-- One persisted row of the attendance table (src/unnamed/part_006, lines
58-70, and src/backend/migrations/001_initial_schema.sql, lines 55-68). -/
structure AttRow where
  subject_id : String
  student_id : String
  date : String
  status : Status
  method : Method
  confidence_score : Option ℚ
  marked_by : Option String
  created_at : ℕ
deriving DecidableEq, Repr

/-- The composite key constrained UNIQUE(subject_id, student_id, date) by
both attendance schemas. -/
def rowKey (r : AttRow) : String × String × String :=
  (r.subject_id, r.student_id, r.date)

/-- All rows of a table carry pairwise distinct composite keys — the state
invariant enforced by the UNIQUE constraint. -/
def UniqueKeys (t : List AttRow) : Prop :=
  t.Pairwise (fun a b => rowKey a ≠ rowKey b)

/-- INSERT into the attendance table under its UNIQUE(subject_id,
student_id, date) constraint: an insert whose composite key already exists
is rejected by the constraint and leaves the table unchanged; otherwise the
row is appended. -/
def insertAttendance (t : List AttRow) (r : AttRow) : List AttRow :=
  if t.any (fun x => decide (rowKey x = rowKey r)) then t else t ++ [r]

/-- A table with pairwise distinct keys has at most one row per key. -/
theorem uniqueKeys_at_most_one (t : List AttRow) (h : UniqueKeys t)
    (k : String × String × String) :
    (t.filter (fun x => decide (rowKey x = k))).length ≤ 1 := by
  induction t with
  | nil => simp
  | cons a s ih =>
    rw [UniqueKeys, List.pairwise_cons] at h
    by_cases ha : rowKey a = k
    · have : s.filter (fun x => decide (rowKey x = k)) = [] := by
        apply List.filter_eq_nil_iff.mpr
        intro x hx
        simp only [decide_eq_true_eq]
        intro hxk
        exact h.1 x hx (by rw [ha, hxk])
      simp [List.filter_cons, ha, this]
    · simpa [List.filter_cons, ha] using ih h.2

/-- C3: inserting into a table whose composite keys are pairwise distinct
keeps them pairwise distinct, every key still indexes at most one row
afterwards, and a second mark for an already present (subject, student,
date) key leaves the table exactly as it was — no duplicate row is ever
created. -/
theorem attendance_key_unique (t : List AttRow) (r : AttRow)
    (h : UniqueKeys t) :
    UniqueKeys (insertAttendance t r) ∧
    (∀ k, ((insertAttendance t r).filter
        (fun x => decide (rowKey x = k))).length ≤ 1) ∧
    (∀ x ∈ t, rowKey x = rowKey r → insertAttendance t r = t) := by
  have hins : UniqueKeys (insertAttendance t r) := by
    by_cases hc : t.any (fun x => decide (rowKey x = rowKey r)) = true
    · simpa [insertAttendance, hc] using h
    · have hnone : ∀ x ∈ t, rowKey x ≠ rowKey r := by
        intro x hx hxk
        exact hc (List.any_eq_true.mpr ⟨x, hx, by simp [hxk]⟩)
      have hrw : insertAttendance t r = t ++ [r] := by
        simp [insertAttendance, hc]
      rw [hrw, UniqueKeys, List.pairwise_append]
      refine ⟨h, List.pairwise_singleton _ _, ?_⟩
      intro a ha b hb
      simp only [List.mem_singleton] at hb
      subst hb
      exact hnone a ha
  refine ⟨hins, fun k => uniqueKeys_at_most_one _ hins k, ?_⟩
  intro x hx hk
  have : t.any (fun y => decide (rowKey y = rowKey r)) = true :=
    List.any_eq_true.mpr ⟨x, hx, by simp [hk]⟩
  simp [insertAttendance, this]

/-- A one-row attendance table used to witness the uniqueness theorem. -/
def demoRow : AttRow :=
  { subject_id := "cs101", student_id := "alice", date := "2024-05-01",
    status := Status.present, method := Method.face_recognition,
    confidence_score := some (9/10), marked_by := some "teacher",
    created_at := 0 }

/-- Witness for attendance_key_unique: re-marking the same (subject,
student, date) key is a no-op on a concrete one-row table. -/
theorem attendance_key_unique_witness :
    insertAttendance [demoRow] { demoRow with status := Status.late } =
      [demoRow] :=
  (attendance_key_unique [demoRow] { demoRow with status := Status.late }
      (List.pairwise_singleton _ _)).2.2 demoRow (by simp) rfl

/-- Modelled from the spec: a MatchCandidate of the Similarity Matcher
(section 4.4), a (face_index, identity_id, similarity_score) triple; the
backend resolver service is absent from the source tree. -/
structure MatchCandidate where
  face_index : ℕ
  identity_id : ℕ
  similarity_score : ℚ
deriving DecidableEq, Repr

/-- Modelled from the spec: the deterministic processing order of the
Assignment Resolver (sections 4.5 and 8) — descending similarity_score,
ties broken by ascending face_index and then by ascending identity_id. -/
def candLE (a b : MatchCandidate) : Prop :=
  b.similarity_score < a.similarity_score ∨
    (a.similarity_score = b.similarity_score ∧
      (a.face_index < b.face_index ∨
        (a.face_index = b.face_index ∧ a.identity_id ≤ b.identity_id)))

instance : DecidableRel candLE := fun a b => by
  unfold candLE
  infer_instance

instance : IsTotal MatchCandidate candLE := by
  constructor
  intro a b
  unfold candLE
  rcases lt_trichotomy a.similarity_score b.similarity_score with hs | hs | hs
  · right
    left
    exact hs
  · rcases Nat.lt_trichotomy a.face_index b.face_index with hf | hf | hf
    · left
      right
      exact ⟨hs, Or.inl hf⟩
    · rcases Nat.le_total a.identity_id b.identity_id with hi | hi
      · left
        right
        exact ⟨hs, Or.inr ⟨hf, hi⟩⟩
      · right
        right
        exact ⟨hs.symm, Or.inr ⟨hf.symm, hi⟩⟩
    · right
      right
      exact ⟨hs.symm, Or.inl hf⟩
  · left
    left
    exact hs

instance : IsTrans MatchCandidate candLE := by
  constructor
  intro a b c hab hbc
  unfold candLE at *
  rcases hab with hab | ⟨habs, hab⟩
  · rcases hbc with hbc | ⟨hbcs, _⟩
    · exact Or.inl (lt_trans hbc hab)
    · exact Or.inl (hbcs ▸ hab)
  · rcases hbc with hbc | ⟨hbcs, hbc⟩
    · exact Or.inl (habs ▸ hbc)
    · refine Or.inr ⟨habs.trans hbcs, ?_⟩
      rcases hab with hab | ⟨habf, habi⟩
      · rcases hbc with hbc | ⟨hbcf, _⟩
        · exact Or.inl (lt_trans hab hbc)
        · exact Or.inl (hbcf ▸ hab)
      · rcases hbc with hbc | ⟨hbcf, hbci⟩
        · exact Or.inl (habf ▸ hbc)
        · exact Or.inr ⟨habf.trans hbcf, le_trans habi hbci⟩

instance : IsAntisymm MatchCandidate candLE := by
  constructor
  intro a b hab hba
  have hs : a.similarity_score = b.similarity_score := by
    rcases hab with hab | ⟨habs, _⟩
    · rcases hba with hba | ⟨hbas, _⟩
      · exact absurd (lt_trans hab hba) (lt_irrefl _)
      · exact hbas.symm
    · exact habs
  have hf : a.face_index = b.face_index := by
    rcases hab with hab | ⟨_, hab⟩
    · exact absurd hs.le (not_le.mpr hab)
    · rcases hba with hba | ⟨_, hba⟩
      · exact absurd hs.ge (not_le.mpr hba)
      · rcases hab with hab | ⟨habf, _⟩
        · rcases hba with hba | ⟨hbaf, _⟩
          · omega
          · omega
        · exact habf
  have hi : a.identity_id = b.identity_id := by
    rcases hab with hab | ⟨_, hab | ⟨_, habi⟩⟩
    · exact absurd hs.le (not_le.mpr hab)
    · omega
    · rcases hba with hba | ⟨_, hba | ⟨_, hbai⟩⟩
      · exact absurd hs.ge (not_le.mpr hba)
      · omega
      · omega
  cases a
  cases b
  simp only [MatchCandidate.mk.injEq]
  exact ⟨hf, hi, hs⟩

/-- Two candidates conflict when they claim the same face or the same
identity; the resolver accepts a candidate only if it conflicts with none
already accepted. -/
def conflict (a b : MatchCandidate) : Bool :=
  decide (a.face_index = b.face_index) || decide (a.identity_id = b.identity_id)

/-- Modelled from the spec: one step of the greedy acceptance loop of the
Assignment Resolver (section 4.5) — a candidate is appended exactly when
both its face and its identity are still unclaimed. -/
def greedyStep (acc : List MatchCandidate) (c : MatchCandidate) :
    List MatchCandidate :=
  if acc.any (fun r => conflict r c) then acc else acc ++ [c]

/-- Modelled from the spec: the Assignment Resolver (section 4.5) — sort
all candidates of the submission by the deterministic order candLE and
greedily accept into the resolved set. -/
def resolve (l : List MatchCandidate) : List MatchCandidate :=
  (List.insertionSort candLE l).foldl greedyStep []

/-- Accepted candidates are never dropped by later greedy steps. -/
theorem mem_foldl_greedyStep (s : List MatchCandidate)
    (acc : List MatchCandidate) (r : MatchCandidate) (h : r ∈ acc) :
    r ∈ s.foldl greedyStep acc := by
  induction s generalizing acc with
  | nil => exact h
  | cons a t ih =>
    rw [List.foldl_cons]
    apply ih
    unfold greedyStep
    by_cases hc : acc.any (fun x => conflict x a) = true
    · simpa [hc] using h
    · simp only [hc, if_false]
      exact List.mem_append_left _ h

/-- The greedy loop preserves pairwise absence of conflicts. -/
theorem foldl_greedyStep_noconflict (s : List MatchCandidate)
    (acc : List MatchCandidate)
    (h : acc.Pairwise (fun a b => conflict a b = false)) :
    (s.foldl greedyStep acc).Pairwise (fun a b => conflict a b = false) := by
  induction s generalizing acc with
  | nil => exact h
  | cons a t ih =>
    rw [List.foldl_cons]
    apply ih
    unfold greedyStep
    by_cases hc : acc.any (fun x => conflict x a) = true
    · simpa [hc] using h
    · have hnone : ∀ x ∈ acc, conflict x a = false := by
        intro x hx
        by_contra hxc
        exact hc (List.any_eq_true.mpr ⟨x, hx, by simpa using hxc⟩)
      rw [if_neg hc, List.pairwise_append]
      refine ⟨h, List.pairwise_singleton _ _, ?_⟩
      intro x hx b hb
      simp only [List.mem_singleton] at hb
      subst hb
      exact hnone x hx

/-- Every candidate of a sorted input is either accepted by the greedy loop
or blocked by an accepted candidate that conflicts with it and precedes it
in the processing order. -/
theorem foldl_greedyStep_block (s : List MatchCandidate)
    (acc : List MatchCandidate) (hs : s.Pairwise candLE)
    (hacc : ∀ r ∈ acc, ∀ x ∈ s, candLE r x) :
    ∀ c ∈ s, c ∈ s.foldl greedyStep acc ∨
      ∃ r ∈ s.foldl greedyStep acc, conflict r c = true ∧ candLE r c := by
  induction s generalizing acc with
  | nil => intro c hc; exact absurd hc (List.not_mem_nil c)
  | cons a t ih =>
    have hs2 := List.pairwise_cons.mp hs
    intro c hc
    rw [List.foldl_cons]
    rcases List.mem_cons.mp hc with hca | hct
    · subst hca
      by_cases hany : acc.any (fun x => conflict x c) = true
      · obtain ⟨r, hr, hconf⟩ := List.any_eq_true.mp hany
        right
        refine ⟨r, ?_, by simpa using hconf, hacc r hr c (List.mem_cons_self c t)⟩
        apply mem_foldl_greedyStep
        simp [greedyStep, hany, hr]
      · left
        apply mem_foldl_greedyStep
        simp [greedyStep, hany]
    · have hacc2 : ∀ r ∈ greedyStep acc a, ∀ x ∈ t, candLE r x := by
        intro r hr x hx
        unfold greedyStep at hr
        by_cases hany : acc.any (fun y => conflict y a) = true
        · rw [if_pos hany] at hr
          exact hacc r hr x (List.mem_cons_of_mem a hx)
        · rw [if_neg hany] at hr
          rcases List.mem_append.mp hr with hr | hr
          · exact hacc r hr x (List.mem_cons_of_mem a hx)
          · simp only [List.mem_singleton] at hr
            subst hr
            exact hs2.1 x hx
      exact ih (greedyStep acc a) hs2.2 hacc2 c hct

/-- C2: the resolved set of one submission is one-to-one — no face_index and
no identity_id occurs twice — and every candidate of the submission is
either accepted or loses its face or identity to an accepted candidate
whose similarity_score is at least as high (the highest score wins). -/
theorem resolve_one_to_one (l : List MatchCandidate) :
    (resolve l).Pairwise (fun a b => a.face_index ≠ b.face_index) ∧
    (resolve l).Pairwise (fun a b => a.identity_id ≠ b.identity_id) ∧
    ∀ c ∈ l, c ∈ resolve l ∨
      ∃ r ∈ resolve l,
        (r.face_index = c.face_index ∨ r.identity_id = c.identity_id) ∧
        c.similarity_score ≤ r.similarity_score := by
  have hnc : (resolve l).Pairwise (fun a b => conflict a b = false) :=
    foldl_greedyStep_noconflict _ [] (List.Pairwise.nil)
  refine ⟨?_, ?_, ?_⟩
  · refine hnc.imp ?_
    intro a b hab
    simp only [conflict, Bool.or_eq_false_iff, decide_eq_false_iff_not] at hab
    exact hab.1
  · refine hnc.imp ?_
    intro a b hab
    simp only [conflict, Bool.or_eq_false_iff, decide_eq_false_iff_not] at hab
    exact hab.2
  · intro c hc
    have hcs : c ∈ List.insertionSort candLE l :=
      (List.perm_insertionSort candLE l).mem_iff.mpr hc
    have hblock := foldl_greedyStep_block (List.insertionSort candLE l) []
      (List.sorted_insertionSort candLE l) (by intro r hr; exact absurd hr (List.not_mem_nil r))
      c hcs
    rcases hblock with hin | ⟨r, hr, hconf, hle⟩
    · exact Or.inl hin
    · right
      refine ⟨r, hr, ?_, ?_⟩
      · simpa [conflict] using hconf
      · rcases hle with hlt | ⟨heq, _⟩
        · exact le_of_lt hlt
        · exact le_of_eq heq.symm

/-- Two faces of one photo both matching identity seven, with different
scores — the scenario of the duplicate-prevention contract. -/
def demoCands : List MatchCandidate :=
  [ { face_index := 0, identity_id := 7, similarity_score := 3/4 },
    { face_index := 1, identity_id := 7, similarity_score := 9/10 } ]

/-- Witness for resolve_one_to_one: the weaker of two candidates for
identity seven is either accepted or beaten by an accepted candidate with
at least its score. -/
theorem resolve_one_to_one_witness :
    ({ face_index := 0, identity_id := 7, similarity_score := 3/4 } :
        MatchCandidate) ∈ demoCands ∧
    (({ face_index := 0, identity_id := 7, similarity_score := 3/4 } :
        MatchCandidate) ∈ resolve demoCands ∨
      ∃ r ∈ resolve demoCands,
        (r.face_index = 0 ∨ r.identity_id = 7) ∧
        (3/4 : ℚ) ≤ r.similarity_score) :=
  ⟨by simp [demoCands],
   (resolve_one_to_one demoCands).2.2 _ (by simp [demoCands])⟩

/-- C8: the resolution pipeline is deterministic — any two inputs carrying
the same candidates (in any arrival order, exact score ties included)
resolve to the identical assignment, because the processing order is the
total order candLE: descending score, then ascending face_index, then the
stable identity ordering. -/
theorem resolve_deterministic (l l2 : List MatchCandidate) (h : l.Perm l2) :
    resolve l = resolve l2 := by
  unfold resolve
  have hsort : List.insertionSort candLE l = List.insertionSort candLE l2 :=
    List.eq_of_perm_of_sorted
      ((List.perm_insertionSort candLE l).trans
        (h.trans (List.perm_insertionSort candLE l2).symm))
      (List.sorted_insertionSort candLE l)
      (List.sorted_insertionSort candLE l2)
  rw [hsort]

/-- Two candidates with exactly tied scores for distinct faces. -/
def tieA : MatchCandidate :=
  { face_index := 0, identity_id := 1, similarity_score := 9/10 }

/-- The second of the tied candidates. -/
def tieB : MatchCandidate :=
  { face_index := 1, identity_id := 2, similarity_score := 9/10 }

/-- Witness for resolve_deterministic: swapping the arrival order of two
exactly tied candidates does not change the assignment. -/
theorem resolve_deterministic_witness :
    resolve [tieA, tieB] = resolve [tieB, tieA] :=
  resolve_deterministic [tieA, tieB] [tieB, tieA] (List.Perm.swap tieB tieA [])

/-- Modelled from the spec: the faces_recognized count of the response
(section 6) — the number of detected face indices that the resolved set
claims. -/
def facesRecognized (N : ℕ) (l : List MatchCandidate) : ℕ :=
  ((List.range N).filter
    (fun i => (resolve l).any (fun r => decide (r.face_index = i)))).length

/-- Modelled from the spec: the faces_unrecognized count of the response
(section 6) — the number of detected face indices the resolved set leaves
unclaimed. -/
def facesUnrecognized (N : ℕ) (l : List MatchCandidate) : ℕ :=
  ((List.range N).filter
    (fun i => !(resolve l).any (fun r => decide (r.face_index = i)))).length

/-- A boolean predicate splits a list into its filter and the filter of the
negation. -/
theorem filter_length_partition {α : Type} (p : α → Bool) (L : List α) :
    (L.filter p).length + (L.filter (fun a => !p a)).length = L.length := by
  induction L with
  | nil => rfl
  | cons a t ih =>
    cases hp : p a <;> simp [List.filter_cons, hp, ← ih] <;> omega

/-- C6: for every submission with N detected faces the response counts
partition the faces — faces_recognized + faces_unrecognized = N — including
the zero-face case N = 0. -/
theorem faces_count_partition (N : ℕ) (l : List MatchCandidate) :
    facesRecognized N l + facesUnrecognized N l = N := by
  unfold facesRecognized facesUnrecognized
  rw [filter_length_partition]
  exact List.length_range N

/-- Modelled from the spec: whole-submission processing with its failure
semantics (section 7) — an invalid image or an unavailable registry aborts
the submission atomically with a success-false response and no attendance
row; otherwise the candidates are resolved and the counts reported. -/
def runSubmission (registry_up : Bool) (valid_image : Bool) (N : ℕ)
    (l : List MatchCandidate) (subject : String) (date : String)
    (marker : String) : FaceResult × List AttRow :=
  if !valid_image || !registry_up then
    ({ success := false, student_id := "", similarity_score := none,
       faces_detected := 0, faces_recognized := 0, faces_unrecognized := 0,
       recognized_students := [], unrecognized_faces := [] }, [])
  else
    let res := resolve l
    let recog : List RecognizedStudent := res.map (fun r =>
      { student_id := toString r.identity_id, face_index := r.face_index,
        similarity_score := r.similarity_score })
    ({ success := true,
       student_id := ((recog.head?).map (fun s => s.student_id)).getD "",
       similarity_score := (recog.head?).map (fun s => s.similarity_score),
       faces_detected := N,
       faces_recognized := facesRecognized N l,
       faces_unrecognized := facesUnrecognized N l,
       recognized_students := recog,
       unrecognized_faces := (List.range N).filter
         (fun i => !res.any (fun r => decide (r.face_index = i))) },
     res.map (fun r =>
       { subject_id := subject, student_id := toString r.identity_id,
         date := date, status := Status.present,
         method := Method.face_recognition,
         confidence_score := some r.similarity_score,
         marked_by := some marker, created_at := 0 }))

/-- C7: a submission that fails as a whole — unavailable registry or invalid
image — yields a response with success false, writes zero attendance rows,
and leaves the client attendance state exactly as it was: the caller never
observes a partially written attendance state. -/
theorem failed_submission_atomic (registry_up valid_image : Bool) (N : ℕ)
    (l : List MatchCandidate) (subject date marker : String)
    (prev : AttendanceMap) (ok : Bool)
    (h : registry_up = false ∨ valid_image = false) :
    (runSubmission registry_up valid_image N l subject date marker).1.success
        = false ∧
    (runSubmission registry_up valid_image N l subject date marker).2 = [] ∧
    handleFaceRecognitionUpdate prev ok
        (runSubmission registry_up valid_image N l subject date marker).1
      = prev := by
  have hcond : (!valid_image || !registry_up) = true := by
    rcases h with h | h <;> simp [h]
  refine ⟨?_, ?_, ?_⟩ <;>
    simp [runSubmission, hcond, handleFaceRecognitionUpdate]

/-- Witness for failed_submission_atomic: a registry outage on a one-face
submission reports failure, writes nothing, and changes no client state. -/
theorem failed_submission_atomic_witness :
    (runSubmission false true 1 [tieA] "cs101" "2024-05-01" "teacher").1.success
        = false ∧
    (runSubmission false true 1 [tieA] "cs101" "2024-05-01" "teacher").2 = [] ∧
    handleFaceRecognitionUpdate demoPrev true
        (runSubmission false true 1 [tieA] "cs101" "2024-05-01" "teacher").1
      = demoPrev :=
  failed_submission_atomic false true 1 [tieA] "cs101" "2024-05-01" "teacher"
    demoPrev true (Or.inl rfl)

end Acadion
